import Mathlib

/-! # Volume storage engine: super block codec, volume accounting, backend registry

A shallow embedding of `weed/storage/volume_super_block.go`, `weed/storage/volume.go`,
`weed/storage/backend/backend.go` and `weed/storage/backend/s3_backend/s3_backend.go`.

Conventions of the embedding
* a byte is a `Nat` below 256, a `uint16`/`uint32`/`uint64` a `Nat` reduced with `%`,
  an `int64` an `Int` reduced with `wrapInt64`;
* a Go pointer or interface value that may be `nil` is an `Option`;
* a Go interface is a record of its methods;
* `glog.Fatalf` and a nil dereference end the run: such code returns `Except Abort`;
* Go maps that are only looked up are functions, maps that are ranged over are
  association lists with distinct keys;
* packages that are used by the embedded files but are not part of them
  (`needle`, `util`, `proto`, the replica placement codec) enter as the record `Deps`.
-/

namespace Seaweed

set_option autoImplicit false

/-! ## Machine integers -/

/-- Conversion to `uint16`. -/
def toUint16 (n : Nat) : Nat := n % 65536

/-- Conversion to `uint32`. -/
def toUint32 (n : Nat) : Nat := n % 4294967296

/-- Conversion of a natural number to `uint64`. -/
def toUint64 (n : Nat) : Nat := n % 18446744073709551616

/-- Conversion of an integer to `uint64` (two's complement). -/
def intToUint64 (i : Int) : Nat := (i % 18446744073709551616).toNat

/-- Two's complement reduction of an integer to the `int64` range. -/
def wrapInt64 (i : Int) : Int :=
  (i + 9223372036854775808) % 18446744073709551616 - 9223372036854775808

/-- Go integer division: the quotient is truncated toward zero. -/
def goDiv (a b : Int) : Int := Int.tdiv a b

/-! ## Ways a run ends without a result -/

/-- The two ways the embedded code ends the run: `glog.Fatalf` and a nil dereference. -/
inductive Abort where
  | fatal
  | nilDereference
  deriving DecidableEq, Repr

/-- Errors returned by `ReadSuperBlock`. -/
inductive ReadError where
  | cannotReadSuperBlock
  | cannotReadReplicaType
  | cannotReadExtra
  deriving DecidableEq, Repr

/-! ## Collaborators outside the embedded files -/

/-- Modelled from the spec: `util.Uint16toBytes` is not among the embedded files; the
two-byte fields of the super block are big-endian, so the most significant byte of the
`uint16` is written first. -/
def Uint16toBytes (v : Nat) : Nat × Nat := (toUint16 v / 256, toUint16 v % 256)

/-- Modelled from the spec: `util.BytesToUint16` is not among the embedded files; it
reads a big-endian `uint16` from two bytes. -/
def BytesToUint16 (b0 b1 : Nat) : Nat := toUint16 ((b0 % 256) * 256 + b1 % 256)

/-- The operations of the packages `needle`, `proto` and of the replica placement codec
that the embedded files call. `RP` is `ReplicaPlacement`, `TTL` is `needle.TTL`, `Extra`
is `master_pb.SuperBlockExtra`. -/
structure Deps (RP TTL Extra : Type) where
  /-- The Go `(*ReplicaPlacement).Byte`. -/
  rpByte : RP → Nat
  /-- The Go `NewReplicaPlacementFromByte`; `none` is the decode error. -/
  NewReplicaPlacementFromByte : Nat → Option RP
  /-- The Go `(*TTL).ToBytes`: the two bytes written to the output slice. -/
  ttlToBytes : TTL → Nat × Nat
  /-- The Go `needle.LoadTTLFromBytes` on a two byte slice. -/
  LoadTTLFromBytes : Nat → Nat → TTL
  /-- The Go `(*TTL).Minutes`, a `uint32`. -/
  Minutes : TTL → Nat
  /-- The Go `proto.Marshal`; `none` is the marshalling error. -/
  Marshal : Extra → Option (List Nat)
  /-- The Go `proto.Unmarshal` into a fresh message; `none` is the decoding error. -/
  Unmarshal : List Nat → Option Extra

/-- A `time.Time`, as Unix seconds. -/
abbrev Time := Int

/-- The zero value `time.Time{}` (January 1, year 1, 00:00 UTC). -/
def zeroTime : Time := -62135596800

/-- The result triple of `GetStat`: size (`int64`), modification time, error. -/
structure Stat where
  datSize : Int
  modTime : Time
  err : Option String
  deriving DecidableEq, Repr

/-- The interface `backend.BackendStorageFile`, restricted to the methods the embedded
code calls. `ReadAt n off` is `ReadAt(p, off)` with `len(p) = n`: the bytes placed in `p`
when the error is nil, `none` when the error is non-nil. -/
structure BackendStorageFile where
  ReadAt : Nat → Nat → Option (List Nat)
  GetStat : Stat
  String : String

/-! ## `volume_super_block.go` -/

/-- The constant `_SuperBlockSize`. -/
def _SuperBlockSize : Nat := 8

/-- The struct `SuperBlock`. -/
structure SuperBlock (RP TTL Extra : Type) where
  version : Nat
  ReplicaPlacement : Option RP
  Ttl : Option TTL
  CompactionRevision : Nat
  Extra : Option Extra
  extraSize : Nat

namespace SuperBlock

variable {RP TTL Extra : Type}

/-- The Go `(*SuperBlock).Initialized`. -/
def Initialized (s : SuperBlock RP TTL Extra) : Bool :=
  s.ReplicaPlacement.isSome && s.Ttl.isSome

/-- The Go `(*SuperBlock).Bytes`: the bytes returned, together with the receiver after the call
(the method stores `extraSize`). -/
def Bytes (D : Deps RP TTL Extra) (s : SuperBlock RP TTL Extra) :
    Except Abort (List Nat × SuperBlock RP TTL Extra) :=
  let header := List.replicate _SuperBlockSize 0
  let header := header.set 0 (s.version % 256)
  match s.ReplicaPlacement with
  | none => .error .nilDereference
  | some rp =>
    let header := header.set 1 (D.rpByte rp % 256)
    match s.Ttl with
    | none => .error .nilDereference
    | some ttl =>
      let header := (header.set 2 ((D.ttlToBytes ttl).1 % 256)).set 3
        ((D.ttlToBytes ttl).2 % 256)
      let header := (header.set 4 (Uint16toBytes s.CompactionRevision).1).set 5
        (Uint16toBytes s.CompactionRevision).2
      match s.Extra with
      | none => .ok (header, s)
      | some extra =>
        match D.Marshal extra with
        | none => .error .fatal
        | some extraData =>
          let extraSize := extraData.length
          if extraSize > 256 * 256 - 2 then .error .fatal
          else
            let s1 := { s with extraSize := toUint16 extraSize }
            let header := (header.set 6 (Uint16toBytes s1.extraSize).1).set 7
              (Uint16toBytes s1.extraSize).2
            .ok (header ++ extraData, s1)

end SuperBlock

/-- The Go `ReadSuperBlock`. The scratch slice `extraData` is `make([]byte, extraSize)`: the
function does not read it from the backend. -/
def ReadSuperBlock {RP TTL Extra : Type} (D : Deps RP TTL Extra)
    (datBackend : BackendStorageFile) : Except ReadError (SuperBlock RP TTL Extra) :=
  match datBackend.ReadAt _SuperBlockSize 0 with
  | none => .error .cannotReadSuperBlock
  | some header =>
    let version := header.getD 0 0
    match D.NewReplicaPlacementFromByte (header.getD 1 0) with
    | none => .error .cannotReadReplicaType
    | some rp =>
      let ttl := D.LoadTTLFromBytes (header.getD 2 0) (header.getD 3 0)
      let rev := BytesToUint16 (header.getD 4 0) (header.getD 5 0)
      let extraSize := BytesToUint16 (header.getD 6 0) (header.getD 7 0)
      if extraSize > 0 then
        let extraData := List.replicate extraSize 0
        match D.Unmarshal extraData with
        | none => .error .cannotReadExtra
        | some extra =>
          .ok { version := version, ReplicaPlacement := some rp, Ttl := some ttl,
                CompactionRevision := rev, Extra := some extra, extraSize := extraSize }
      else
        .ok { version := version, ReplicaPlacement := some rp, Ttl := some ttl,
              CompactionRevision := rev, Extra := none, extraSize := extraSize }

/-! ## `volume.go` -/

/-- The interface `NeedleMapper`, restricted to the accessors `Volume` delegates to: the
values the index reports. -/
structure NeedleMapper where
  ContentSize : Nat
  DeletedSize : Nat
  FileCount : Int
  DeletedCount : Int
  MaxFileKey : Nat
  IndexFileSize : Nat

/-- The struct `Volume` (the lock is left out: every method body below runs as one
critical section). The `SuperBlock` is embedded, as in the source. -/
structure Volume (RP TTL Extra : Type) extends SuperBlock RP TTL Extra where
  Id : Nat
  dir : String
  Collection : String
  DataBackend : Option BackendStorageFile
  nm : Option NeedleMapper
  readOnly : Bool
  lastModifiedTsSeconds : Nat
  lastAppendAtNs : Nat

/-- What `Close` does to its collaborators, in order. -/
inductive CloseEvent where
  | indexClose
  | backendClose
  | metricDec (collection : String)
  deriving DecidableEq, Repr

namespace Volume

variable {RP TTL Extra : Type}

/-- The Go `(*Volume).FileStat`. The short variable declaration
`datFileSize, modTime, e := v.DataBackend.GetStat()` stands in the function body block,
so it assigns the named result `modTime`; the bare `return` on the error path returns it. -/
def FileStat (v : Volume RP TTL Extra) : Except Abort (Nat × Nat × Time) :=
  match v.DataBackend with
  | none => .ok (0, 0, zeroTime)
  | some dataBackend =>
    let datFileSize := dataBackend.GetStat.datSize
    let modTime := dataBackend.GetStat.modTime
    match dataBackend.GetStat.err with
    | none =>
      match v.nm with
      | none => .error .nilDereference
      | some nm => .ok (intToUint64 datFileSize, nm.IndexFileSize, modTime)
    | some _ => .ok (0, 0, modTime)

/-- The Go `(*Volume).ContentSize`. -/
def ContentSize (v : Volume RP TTL Extra) : Nat :=
  match v.nm with
  | none => 0
  | some nm => nm.ContentSize

/-- The Go `(*Volume).DeletedSize`. -/
def DeletedSize (v : Volume RP TTL Extra) : Nat :=
  match v.nm with
  | none => 0
  | some nm => nm.DeletedSize

/-- The Go `(*Volume).FileCount`. -/
def FileCount (v : Volume RP TTL Extra) : Nat :=
  match v.nm with
  | none => 0
  | some nm => intToUint64 nm.FileCount

/-- The Go `(*Volume).DeletedCount`. -/
def DeletedCount (v : Volume RP TTL Extra) : Nat :=
  match v.nm with
  | none => 0
  | some nm => intToUint64 nm.DeletedCount

/-- The Go `(*Volume).MaxFileKey`. -/
def MaxFileKey (v : Volume RP TTL Extra) : Nat :=
  match v.nm with
  | none => 0
  | some nm => nm.MaxFileKey

/-- The Go `(*Volume).IndexFileSize`. -/
def IndexFileSize (v : Volume RP TTL Extra) : Nat :=
  match v.nm with
  | none => 0
  | some nm => nm.IndexFileSize

/-- The Go `(*Volume).Close`: the volume after the call and the calls made on the index, the
backend and the volume counter, in order. -/
def Close (v : Volume RP TTL Extra) : Volume RP TTL Extra × List CloseEvent :=
  let r1 : Volume RP TTL Extra × List CloseEvent :=
    match v.nm with
    | some _ => ({ v with nm := none }, [CloseEvent.indexClose])
    | none => (v, [])
  match r1.1.DataBackend with
  | some _ =>
    ({ r1.1 with DataBackend := none },
      r1.2 ++ [CloseEvent.backendClose, CloseEvent.metricDec r1.1.Collection])
  | none => r1

/-- The value of `v.Ttl.Minutes()` as the `uint32` it is. -/
def ttlMinutes (D : Deps RP TTL Extra) (ttl : TTL) : Nat := toUint32 (D.Minutes ttl)

/-- The local `livedMinutes` of `expired`:
`(time.Now().Unix() - int64(v.lastModifiedTsSeconds)) / 60` in `int64` arithmetic. -/
def livedMinutes (v : Volume RP TTL Extra) (now : Int) : Int :=
  goDiv (wrapInt64 (now - wrapInt64 (Int.ofNat v.lastModifiedTsSeconds))) 60

/-- The Go `(*Volume).expired`; `now` is the value of `time.Now().Unix()`. -/
def expired (D : Deps RP TTL Extra) (v : Volume RP TTL Extra) (volumeSizeLimit : Nat)
    (now : Int) : Bool :=
  if volumeSizeLimit = 0 then false
  else if v.ContentSize = 0 then false
  else
    match v.Ttl with
    | none => false
    | some ttl =>
      if ttlMinutes D ttl = 0 then false
      else if Int.ofNat (ttlMinutes D ttl) < v.livedMinutes now then true
      else false

/-- The Go `(*Volume).expiredLongEnough`; `now` is the value of `time.Now().Unix()`. -/
def expiredLongEnough (D : Deps RP TTL Extra) (v : Volume RP TTL Extra)
    (maxDelayMinutes : Nat) (now : Int) : Bool :=
  match v.Ttl with
  | none => false
  | some ttl =>
    if ttlMinutes D ttl = 0 then false
    else
      let removalDelay := ttlMinutes D ttl / 10
      let removalDelay := if removalDelay > maxDelayMinutes then maxDelayMinutes
        else removalDelay
      if toUint64 (toUint64 (toUint32 (ttlMinutes D ttl + removalDelay) * 60)
          + v.lastModifiedTsSeconds) < intToUint64 now then true
      else false

end Volume

/-! ## `backend.go` and the S3 backend storage -/

/-- A Go `map[string]T` that is ranged over: an association list with distinct keys, in
iteration order. -/
abbrev GoMap (β : Type) := List (String × β)

namespace GoMap

variable {β : Type}

/-- Map assignment `m[k] = v`. -/
def set (m : GoMap β) (k : String) (v : β) : GoMap β :=
  match m with
  | [] => [(k, v)]
  | (k1, v1) :: rest => if k1 = k then (k, v) :: rest else (k1, v1) :: set rest k v

/-- The keys of the map. -/
def keys (m : GoMap β) : List String := m.map Prod.fst

end GoMap

/-- A Go `map[string]string` that is only looked up or built. -/
abbrev StringMap := String → Option String

/-- Assignment `m[k] = v` on a `map[string]string`. -/
def StringMap.set (m : StringMap) (k v : String) : StringMap :=
  fun key => if key = k then some v else m key

/-- The empty map `make(map[string]string)`. -/
def StringMap.empty : StringMap := fun _ => none

/-- The interface `StringProperties`: its method `GetString`. -/
abbrev StringProperties := String → String

/-- The Go `newProperties(m)` with `(*Properties).GetString`. -/
def newProperties (m : StringMap) : StringProperties :=
  fun key =>
    match m key with
    | some v => v
    | none => ""

/-- The interface `BackendStorage`, restricted to `ToProperties`. -/
structure BackendStorage where
  ToProperties : StringMap

/-- The interface `BackendStorageFactory`; `BuildStorage` returns `none` for a non-nil
error. -/
structure BackendStorageFactory where
  StorageType : String
  BuildStorage : StringProperties → String → Option BackendStorage

/-- The message `master_pb.StorageBackend`. -/
structure StorageBackend where
  Type_ : String
  Id : String
  Properties : StringMap

/-- The connection `s3iface.S3API`, restricted to `HeadObject` on a bucket and a key:
`none` when the call fails, else content length and last-modified time. -/
structure S3API where
  HeadObject : String → String → Option (Int × Time)

/-- The struct `S3BackendStorage`. -/
structure S3BackendStorage where
  id : String
  aws_access_key_id : String
  aws_secret_access_key : String
  region : String
  bucket : String
  conn : S3API

/-- The struct `S3BackendStorageFile`. -/
structure S3BackendStorageFile where
  backendStorage : S3BackendStorage
  key : String

/-- The Go `S3BackendStorageFile.GetStat`; `now` is the value of `time.Now()` at the call. -/
def S3BackendStorageFile.GetStat (s3backendStorageFile : S3BackendStorageFile)
    (now : Time) : Stat :=
  match s3backendStorageFile.backendStorage.conn.HeadObject
      s3backendStorageFile.backendStorage.bucket s3backendStorageFile.key with
  | none => { datSize := 0, modTime := now, err := some "HeadObject" }
  | some headObjectOutput =>
    { datSize := headObjectOutput.1, modTime := headObjectOutput.2, err := none }

/-- The Go `(*S3BackendStorage).ToProperties`. -/
def S3BackendStorage.ToProperties (s : S3BackendStorage) : StringMap :=
  let m := StringMap.empty
  let m := m.set "aws_access_key_id" s.aws_access_key_id
  let m := m.set "aws_secret_access_key" s.aws_secret_access_key
  let m := m.set "region" s.region
  let m := m.set "bucket" s.bucket
  m

/-- The Go `newS3BackendStorage`; `createSession` (not part of the embedded files) returns `none`
for a non-nil error. -/
def newS3BackendStorage (createSession : String → String → String → Option S3API)
    (configuration : StringProperties) (id : String) : Option S3BackendStorage :=
  let aws_access_key_id := configuration "aws_access_key_id"
  let aws_secret_access_key := configuration "aws_secret_access_key"
  let region := configuration "region"
  let bucket := configuration "bucket"
  match createSession aws_access_key_id aws_secret_access_key region with
  | none => none
  | some conn =>
    some { id := id, aws_access_key_id := aws_access_key_id,
           aws_secret_access_key := aws_secret_access_key, region := region,
           bucket := bucket, conn := conn }

/-- The Go `S3BackendFactory`, with `StorageType` and `BuildStorage`. -/
def S3BackendFactory (createSession : String → String → String → Option S3API) :
    BackendStorageFactory :=
  { StorageType := "s3"
    BuildStorage := fun configuration id =>
      (newS3BackendStorage createSession configuration id).map
        fun s => { ToProperties := s.ToProperties } }

/-- The map `BackendStorageFactories` after the `init` of the S3 backend package. -/
def BackendStorageFactories (createSession : String → String → String → Option S3API) :
    String → Option BackendStorageFactory :=
  fun t => if t = "s3" then some (S3BackendFactory createSession) else none

/-- The installation of one built backend: under `type.id`, and under `type` when the id
is `default` (the last four lines of both loading loops). -/
def install (m : GoMap BackendStorage) (typeName id : String) (b : BackendStorage) :
    GoMap BackendStorage :=
  let m := m.set (typeName ++ "." ++ id) b
  if id = "default" then m.set typeName b else m

/-- The Go `LoadFromPbStorageBackends`. -/
def LoadFromPbStorageBackends (factories : String → Option BackendStorageFactory)
    (storageBackends : List StorageBackend) (m : GoMap BackendStorage) :
    Except Abort (GoMap BackendStorage) :=
  match storageBackends with
  | [] => .ok m
  | storageBackend :: rest =>
    match factories storageBackend.Type_ with
    | none => LoadFromPbStorageBackends factories rest m
    | some backendStorageFactory =>
      match backendStorageFactory.BuildStorage (newProperties storageBackend.Properties)
          storageBackend.Id with
      | none => .error .fatal
      | some backendStorage =>
        LoadFromPbStorageBackends factories rest
          (install m storageBackend.Type_ storageBackend.Id backendStorage)

/-- The Go `strings.Split(s, ".")` on the characters of `s`. -/
def splitDot : List Char → List (List Char)
  | [] => [[]]
  | c :: cs =>
    if c = '.' then [] :: splitDot cs
    else
      match splitDot cs with
      | [] => [[c]]
      | p :: ps => (c :: p) :: ps

/-- The Go `strings.Split(s, ".")`. -/
def stringsSplitDot (s : String) : List String := (splitDot s.data).map String.mk

/-- The Go `ToPbStorageBackends`: the messages appended, in the iteration order of the map. -/
def ToPbStorageBackends (m : GoMap BackendStorage) : List StorageBackend :=
  match m with
  | [] => []
  | (sName, s) :: rest =>
    match stringsSplitDot sName with
    | [sType, sId] =>
      { Type_ := sType, Id := sId, Properties := s.ToProperties } :: ToPbStorageBackends rest
    | _ => ToPbStorageBackends rest

/-! ## Sample collaborators

Concrete stand-ins for the packages behind `Deps`, used to evaluate the embedded
functions on concrete inputs. A replica placement is its code `xyz` (three decimal
digits, each at most 2, as in the comment on `SuperBlock`), a TTL is a count and a unit
byte, an extension message is the list of its bytes. -/

/-- Sample replica placement decoder: accepts the codes whose decimal digits are 0, 1, 2. -/
def sampleRpFromByte (b : Nat) : Option Nat :=
  if b / 100 ≤ 2 ∧ b / 10 % 10 ≤ 2 ∧ b % 10 ≤ 2 then some b else none

/-- Sample TTL length in minutes: unit 1 is minutes, unit 2 is hours, unit 3 is days. -/
def sampleMinutes (t : Nat × Nat) : Nat :=
  if t.2 = 1 then t.1 else if t.2 = 2 then t.1 * 60 else if t.2 = 3 then t.1 * 1440 else 0

/-- Sample collaborators. -/
def sampleDeps : Deps Nat (Nat × Nat) (List Nat) :=
  { rpByte := fun rp => rp
    NewReplicaPlacementFromByte := sampleRpFromByte
    ttlToBytes := fun t => t
    LoadTTLFromBytes := fun a b => (a, b)
    Minutes := sampleMinutes
    Marshal := fun e => some e
    Unmarshal := fun bs => some bs }

/-- A backend file holding the bytes `data`: `ReadAt` succeeds when the whole range lies
inside the file. -/
def memFile (data : List Nat) (stat : Stat) : BackendStorageFile :=
  { ReadAt := fun n off =>
      if off + n ≤ data.length then some ((data.drop off).take n) else none
    GetStat := stat
    String := "mem" }

/-- A sample volume: its TTL and last-modified time are the arguments, the index reports
a content size of 1000 bytes. -/
def sampleVolume (ttl : Option (Nat × Nat)) (lastModified : Nat) :
    Volume Nat (Nat × Nat) (List Nat) :=
  { version := 3, ReplicaPlacement := some 12, Ttl := ttl, CompactionRevision := 0,
    Extra := none, extraSize := 0, Id := 7, dir := "/data", Collection := "pics",
    DataBackend := none,
    nm := some { ContentSize := 1000, DeletedSize := 0, FileCount := 4, DeletedCount := 0,
                 MaxFileKey := 4, IndexFileSize := 64 },
    readOnly := false, lastModifiedTsSeconds := lastModified, lastAppendAtNs := 0 }

/-- A sample volume without index: `nm` is nil, the data backend is the argument. -/
def unloadedVolume (dataBackend : Option BackendStorageFile) :
    Volume Nat (Nat × Nat) (List Nat) :=
  { version := 3, ReplicaPlacement := some 12, Ttl := some (5, 1), CompactionRevision := 0,
    Extra := none, extraSize := 0, Id := 7, dir := "/data", Collection := "pics",
    DataBackend := dataBackend, nm := none, readOnly := false,
    lastModifiedTsSeconds := 1000, lastAppendAtNs := 0 }

/-- A session factory that always succeeds, for evaluation on concrete inputs. -/
def sampleCreateSession : String → String → String → Option S3API :=
  fun _ _ _ => some { HeadObject := fun _ _ => none }

/-- A sample S3 file handle whose `HeadObject` call fails. -/
def sampleS3File : S3BackendStorageFile :=
  { backendStorage :=
      { id := "default", aws_access_key_id := "AKIA", aws_secret_access_key := "secret",
        region := "us-east-1", bucket := "volumes",
        conn := { HeadObject := fun _ _ => none } }
    key := "7.dat" }

/-- Sample properties of an S3 backend: exactly the four keys the S3 backend reads. -/
def sampleS3Properties : StringMap :=
  (((StringMap.empty.set "aws_access_key_id" "AKIA").set "aws_secret_access_key"
    "secret").set "region" "us-east-1").set "bucket" "volumes"

/-! ## Vocabulary of the statements -/

/-- The bytes of the marshaled extension of a super block: none when `Extra` is nil. -/
def marshaledExtra {RP TTL Extra : Type} (D : Deps RP TTL Extra)
    (s : SuperBlock RP TTL Extra) : Option (List Nat) :=
  match s.Extra with
  | none => some []
  | some e => D.Marshal e

/-- What an S3 backend built from the property map `p` exports: the four keys the S3
backend reads, a key absent from `p` with the empty string. -/
def s3Exported (p : StringMap) : StringMap :=
  (((StringMap.empty.set "aws_access_key_id" (newProperties p "aws_access_key_id")).set
    "aws_secret_access_key" (newProperties p "aws_secret_access_key")).set
    "region" (newProperties p "region")).set "bucket" (newProperties p "bucket")

/-- The property map has exactly the four keys of an S3 backend. -/
def HasS3Keys (p : StringMap) : Prop :=
  ∀ k, p k ≠ none ↔
    (k = "aws_access_key_id" ∨ k = "aws_secret_access_key" ∨ k = "region" ∨ k = "bucket")

/-- The session of the entry can be created. -/
def SessionOk (createSession : String → String → String → Option S3API)
    (sb : StorageBackend) : Prop :=
  createSession (newProperties sb.Properties "aws_access_key_id")
    (newProperties sb.Properties "aws_secret_access_key")
    (newProperties sb.Properties "region") ≠ none

/-! ## Super block codec: lemmas -/

theorem BytesToUint16_Uint16toBytes (v : Nat) :
    BytesToUint16 (Uint16toBytes v).1 (Uint16toBytes v).2 = toUint16 v := by
  simp only [BytesToUint16, Uint16toBytes, toUint16]
  omega

theorem Uint16toBytes_lt (v : Nat) :
    (Uint16toBytes v).1 < 256 ∧ (Uint16toBytes v).2 < 256 := by
  simp only [Uint16toBytes, toUint16]
  omega

/-- The header written by `Bytes` when both pointers are set and there is no extension. -/
theorem Bytes_no_extra {RP TTL Extra : Type} (D : Deps RP TTL Extra)
    (s : SuperBlock RP TTL Extra) (rp : RP) (ttl : TTL)
    (hrp : s.ReplicaPlacement = some rp) (httl : s.Ttl = some ttl) (hx : s.Extra = none) :
    s.Bytes D = .ok ([s.version % 256, D.rpByte rp % 256, (D.ttlToBytes ttl).1 % 256,
      (D.ttlToBytes ttl).2 % 256, (Uint16toBytes s.CompactionRevision).1,
      (Uint16toBytes s.CompactionRevision).2, 0, 0], s) := by
  simp [SuperBlock.Bytes, hrp, httl, hx, _SuperBlockSize, List.replicate]

/-- The bytes written by `Bytes` when both pointers are set and the extension marshals to
`ext`, at most 65534 bytes long. -/
theorem Bytes_extra {RP TTL Extra : Type} (D : Deps RP TTL Extra)
    (s : SuperBlock RP TTL Extra) (rp : RP) (ttl : TTL) (e : Extra) (ext : List Nat)
    (hrp : s.ReplicaPlacement = some rp) (httl : s.Ttl = some ttl) (hx : s.Extra = some e)
    (hm : D.Marshal e = some ext) (hn : ext.length ≤ 65534) :
    s.Bytes D = .ok ([s.version % 256, D.rpByte rp % 256, (D.ttlToBytes ttl).1 % 256,
      (D.ttlToBytes ttl).2 % 256, (Uint16toBytes s.CompactionRevision).1,
      (Uint16toBytes s.CompactionRevision).2, ext.length / 256, ext.length % 256] ++ ext,
      { s with extraSize := ext.length }) := by
  have h1 : ¬ (ext.length > 256 * 256 - 2) := by omega
  have h2 : toUint16 ext.length = ext.length := by
    simp only [toUint16]; omega
  simp [SuperBlock.Bytes, hrp, httl, hx, hm, h1, h2, _SuperBlockSize, List.replicate,
    Uint16toBytes]

/-! ## Super block codec: claims -/

/-- C1: a super block with a version byte, a replica placement that its byte codec
restores, a TTL that its two byte codec restores, a `uint16` compaction revision and no
extension is written by `Bytes` as a header that `ReadSuperBlock` decodes, from any
backend file that serves these 8 bytes at offset 0, into a super block with the same
version, replica placement, TTL and compaction revision (and no extension). -/
theorem C1_read_after_bytes {RP TTL Extra : Type} (D : Deps RP TTL Extra)
    (s : SuperBlock RP TTL Extra) (rp : RP) (ttl : TTL)
    (hv : s.version < 256)
    (hrp : s.ReplicaPlacement = some rp)
    (hrpValid : D.NewReplicaPlacementFromByte (D.rpByte rp % 256) = some rp)
    (httl : s.Ttl = some ttl)
    (httlValid : D.LoadTTLFromBytes ((D.ttlToBytes ttl).1 % 256)
      ((D.ttlToBytes ttl).2 % 256) = ttl)
    (hrev : s.CompactionRevision < 65536)
    (hx : s.Extra = none) :
    ∃ bytes s1, s.Bytes D = .ok (bytes, s1) ∧ bytes.length = 8 ∧
      ∀ f : BackendStorageFile, f.ReadAt 8 0 = some (bytes.take 8) →
        ∃ r, ReadSuperBlock D f = .ok r ∧ r.version = s.version ∧
          r.ReplicaPlacement = s.ReplicaPlacement ∧ r.Ttl = s.Ttl ∧
          r.CompactionRevision = s.CompactionRevision ∧ r.Extra = none := by
  refine ⟨_, _, Bytes_no_extra D s rp ttl hrp httl hx, rfl, ?_⟩
  intro f hf
  have hrt := BytesToUint16_Uint16toBytes s.CompactionRevision
  have hrev2 : toUint16 s.CompactionRevision = s.CompactionRevision := by
    simp only [toUint16]; omega
  have hz : ¬ (BytesToUint16 0 0 > 0) := by decide
  have hvm : s.version % 256 = s.version := Nat.mod_eq_of_lt hv
  simp only [List.take] at hf
  simp [ReadSuperBlock, _SuperBlockSize, hf, hrpValid, httlValid, hrt, hrev2, hz, hvm,
    hrp, httl]

/-- Witness for C1 on the sample collaborators: version 3, placement 012, TTL (5, 2),
revision 513. -/
theorem C1_read_after_bytes_witness :
    ∃ bytes s1, SuperBlock.Bytes sampleDeps
        { version := 3, ReplicaPlacement := some 12, Ttl := some (5, 2),
          CompactionRevision := 513, Extra := none, extraSize := 0 } = .ok (bytes, s1) ∧
      bytes.length = 8 ∧
      ∀ f : BackendStorageFile, f.ReadAt 8 0 = some (bytes.take 8) →
        ∃ r, ReadSuperBlock sampleDeps f = .ok r ∧ r.version = 3 ∧
          r.ReplicaPlacement = some 12 ∧ r.Ttl = some (5, 2) ∧
          r.CompactionRevision = 513 ∧ r.Extra = none :=
  C1_read_after_bytes sampleDeps
    { version := 3, ReplicaPlacement := some 12, Ttl := some (5, 2),
      CompactionRevision := 513, Extra := none, extraSize := 0 } 12 (5, 2)
    (by decide) rfl (by decide) rfl rfl (by decide) rfl

/-- C2: for an initialized super block (version a byte, compaction revision a `uint16`)
whose marshaled extension `ext` has length `n ≤ 65534` (`n = 0` when `Extra` is nil),
`Bytes` returns exactly `8 + n` bytes: the version, the replica placement byte, the two
TTL bytes, the compaction revision big-endian, `n` big-endian, then `ext`. -/
theorem C2_bytes_layout {RP TTL Extra : Type} (D : Deps RP TTL Extra)
    (s : SuperBlock RP TTL Extra) (ext : List Nat)
    (hinit : s.Initialized = true)
    (hv : s.version < 256) (hrev : s.CompactionRevision < 65536)
    (hm : marshaledExtra D s = some ext) (hn : ext.length ≤ 65534) :
    ∃ rp ttl bytes s1, s.ReplicaPlacement = some rp ∧ s.Ttl = some ttl ∧
      s.Bytes D = .ok (bytes, s1) ∧
      bytes.length = 8 + ext.length ∧
      bytes = [s.version, D.rpByte rp % 256, (D.ttlToBytes ttl).1 % 256,
        (D.ttlToBytes ttl).2 % 256, s.CompactionRevision / 256, s.CompactionRevision % 256,
        ext.length / 256, ext.length % 256] ++ ext := by
  obtain ⟨rp, hrp⟩ : ∃ rp, s.ReplicaPlacement = some rp := by
    cases h : s.ReplicaPlacement with
    | none => simp [SuperBlock.Initialized, h] at hinit
    | some rp => exact ⟨rp, rfl⟩
  obtain ⟨ttl, httl⟩ : ∃ ttl, s.Ttl = some ttl := by
    cases h : s.Ttl with
    | none => simp [SuperBlock.Initialized, h] at hinit
    | some ttl => exact ⟨ttl, rfl⟩
  have hvm : s.version % 256 = s.version := Nat.mod_eq_of_lt hv
  have hc : Uint16toBytes s.CompactionRevision
      = (s.CompactionRevision / 256, s.CompactionRevision % 256) := by
    simp only [Uint16toBytes, toUint16, Prod.mk.injEq]; omega
  cases hx : s.Extra with
  | none =>
    have hext : ext = [] := by
      simp only [marshaledExtra, hx, Option.some.injEq] at hm
      exact hm.symm
    subst hext
    refine ⟨rp, ttl, _, _, hrp, httl, Bytes_no_extra D s rp ttl hrp httl hx, rfl, ?_⟩
    simp [hvm, hc]
  | some e =>
    have hme : D.Marshal e = some ext := by
      simpa [marshaledExtra, hx] using hm
    refine ⟨rp, ttl, _, _, hrp, httl, Bytes_extra D s rp ttl e ext hrp httl hx hme hn, ?_, ?_⟩
    · simp; omega
    · simp [hvm, hc]

/-- Witness for C2 on the sample collaborators, with a three byte extension. -/
theorem C2_bytes_layout_witness :
    ∃ rp ttl bytes s1,
      (some 12 : Option Nat) = some rp ∧ (some (5, 2) : Option (Nat × Nat)) = some ttl ∧
      SuperBlock.Bytes sampleDeps
        { version := 3, ReplicaPlacement := some 12, Ttl := some (5, 2),
          CompactionRevision := 513, Extra := some [10, 20, 30], extraSize := 0 }
        = .ok (bytes, s1) ∧
      bytes.length = 8 + 3 ∧
      bytes = [3, sampleDeps.rpByte rp % 256, (sampleDeps.ttlToBytes ttl).1 % 256,
        (sampleDeps.ttlToBytes ttl).2 % 256, 513 / 256, 513 % 256, 3 / 256, 3 % 256]
        ++ [10, 20, 30] :=
  C2_bytes_layout sampleDeps
    { version := 3, ReplicaPlacement := some 12, Ttl := some (5, 2),
      CompactionRevision := 513, Extra := some [10, 20, 30], extraSize := 0 }
    [10, 20, 30] rfl (by decide) (by decide) rfl (by decide)

/-- The function `ReadSuperBlock` consults the backend only through the 8 byte read at offset 0: two
backend files that agree on that read give the same result, whatever they store at
offset 8. -/
theorem ReadSuperBlock_header_only {RP TTL Extra : Type} (D : Deps RP TTL Extra)
    (f g : BackendStorageFile) (h : f.ReadAt 8 0 = g.ReadAt 8 0) :
    (ReadSuperBlock D f : Except ReadError (SuperBlock RP TTL Extra)) = ReadSuperBlock D g := by
  simp only [ReadSuperBlock, _SuperBlockSize, h]

/-- When the header declares `extraSize > 0`, the extension returned by `ReadSuperBlock`
is the decoding of `extraSize` zero bytes. -/
theorem ReadSuperBlock_extra_of_zeros {RP TTL Extra : Type} (D : Deps RP TTL Extra)
    (f : BackendStorageFile) (header : List Nat) (r : SuperBlock RP TTL Extra)
    (hf : f.ReadAt 8 0 = some header)
    (hsz : 0 < BytesToUint16 (header.getD 6 0) (header.getD 7 0))
    (hr : ReadSuperBlock D f = .ok r) :
    r.Extra = D.Unmarshal
      (List.replicate (BytesToUint16 (header.getD 6 0) (header.getD 7 0)) 0) := by
  simp only [ReadSuperBlock, _SuperBlockSize, hf] at hr
  simp only [List.getD_eq_getElem?_getD] at hsz ⊢
  cases hp : D.NewReplicaPlacementFromByte (header[1]?.getD 0) with
  | none => simp [hp] at hr
  | some rp =>
    cases hu : D.Unmarshal
        (List.replicate (BytesToUint16 (header[6]?.getD 0) (header[7]?.getD 0)) 0) with
    | none => simp [hp, hsz, hu] at hr
    | some x =>
      simp [hp, hsz, hu] at hr
      rw [← hr]

/-- C3 (the code at a failing input): on the sample collaborators, the super block with
extension bytes `[10, 20, 30]` is written as 11 bytes, and `ReadSuperBlock` on a file
holding exactly these bytes returns the extension `[0, 0, 0]`, not `[10, 20, 30]`. -/
theorem C3_extension_not_read_back :
    (SuperBlock.Bytes sampleDeps
        { version := 3, ReplicaPlacement := some 12, Ttl := some (5, 2),
          CompactionRevision := 513, Extra := some [10, 20, 30], extraSize := 0 }).toOption.map
      Prod.fst = some [3, 12, 5, 2, 2, 1, 0, 3, 10, 20, 30] ∧
    ((ReadSuperBlock sampleDeps
        (memFile [3, 12, 5, 2, 2, 1, 0, 3, 10, 20, 30]
          { datSize := 11, modTime := 0, err := none })).toOption.bind
      fun r => r.Extra) = some [0, 0, 0] := by
  constructor <;> rfl

/-! ## Volume: expiry -/

theorem wrapInt64_of_range (i : Int) (h1 : -9223372036854775808 ≤ i)
    (h2 : i < 9223372036854775808) : wrapInt64 i = i := by
  simp only [wrapInt64]
  omega

/-- Without `int64` wraparound `livedMinutes` is the truncated quotient of the elapsed
seconds by 60. -/
theorem livedMinutes_of_range {RP TTL Extra : Type} (v : Volume RP TTL Extra) (now : Int)
    (hlm : v.lastModifiedTsSeconds < 9223372036854775808)
    (hnow : now < 9223372036854775808)
    (hsub : -9223372036854775808 ≤ now - Int.ofNat v.lastModifiedTsSeconds) :
    v.livedMinutes now = goDiv (now - Int.ofNat v.lastModifiedTsSeconds) 60 := by
  have h0 : (0 : Int) ≤ Int.ofNat v.lastModifiedTsSeconds := Int.ofNat_nonneg _
  have h1 : Int.ofNat v.lastModifiedTsSeconds < 9223372036854775808 := by
    have : (v.lastModifiedTsSeconds : Int) < 9223372036854775808 := by exact_mod_cast hlm
    simpa using this
  have e1 : wrapInt64 (Int.ofNat v.lastModifiedTsSeconds)
      = Int.ofNat v.lastModifiedTsSeconds := wrapInt64_of_range _ (by omega) h1
  have e2 : wrapInt64 (now - Int.ofNat v.lastModifiedTsSeconds)
      = now - Int.ofNat v.lastModifiedTsSeconds := wrapInt64_of_range _ hsub (by omega)
  simp only [Volume.livedMinutes, e1, e2]

/-- The decision of `expired` in terms of its local `livedMinutes`. -/
theorem expired_eq_true_iff {RP TTL Extra : Type} (D : Deps RP TTL Extra)
    (v : Volume RP TTL Extra) (volumeSizeLimit : Nat) (now : Int) :
    v.expired D volumeSizeLimit now = true ↔
      volumeSizeLimit ≠ 0 ∧ v.ContentSize ≠ 0 ∧
        ∃ ttl, v.Ttl = some ttl ∧ Volume.ttlMinutes D ttl ≠ 0 ∧
          Int.ofNat (Volume.ttlMinutes D ttl) < v.livedMinutes now := by
  unfold Volume.expired
  by_cases h1 : volumeSizeLimit = 0
  · simp [h1]
  by_cases h2 : v.ContentSize = 0
  · simp [h1, h2]
  cases h3 : v.Ttl with
  | none => simp [h1, h2]
  | some ttl =>
    by_cases h4 : Volume.ttlMinutes D ttl = 0
    · simp [h1, h2, h4]
    · by_cases h5 : Int.ofNat (Volume.ttlMinutes D ttl) < v.livedMinutes now
      · simp [h1, h2, h4, h5]
      · simp [h1, h2, h4, h5]

/-- The removal delay of `expiredLongEnough`: a tenth of the TTL minutes, capped. -/
theorem expiredLongEnough_eq_true_iff {RP TTL Extra : Type} (D : Deps RP TTL Extra)
    (v : Volume RP TTL Extra) (maxDelayMinutes : Nat) (now : Int) :
    v.expiredLongEnough D maxDelayMinutes now = true ↔
      ∃ ttl, v.Ttl = some ttl ∧ Volume.ttlMinutes D ttl ≠ 0 ∧
        toUint64 (toUint64 (toUint32 (Volume.ttlMinutes D ttl
            + min (Volume.ttlMinutes D ttl / 10) maxDelayMinutes) * 60)
          + v.lastModifiedTsSeconds) < intToUint64 now := by
  unfold Volume.expiredLongEnough
  cases h3 : v.Ttl with
  | none => simp
  | some ttl =>
    have hmin : (if Volume.ttlMinutes D ttl / 10 > maxDelayMinutes then maxDelayMinutes
        else Volume.ttlMinutes D ttl / 10)
        = min (Volume.ttlMinutes D ttl / 10) maxDelayMinutes := by
      split <;> omega
    by_cases h4 : Volume.ttlMinutes D ttl = 0
    · simp [h4]
    · simp only [h4, if_false, hmin]
      simp [h4]

/-- C5 (amended): `expiredLongEnough` returns false when no TTL (or a TTL of 0 minutes)
is set; and when `0 ≤ now`, the sum of TTL minutes and delay fits a `uint32` and the
deadline `(ttlMinutes + min(ttlMinutes/10, maxDelayMinutes)) * 60 + lastModifiedTsSeconds`
fits a `uint64`, it returns true only if more than
`ttlMinutes + min(ttlMinutes/10, maxDelayMinutes)` minutes have elapsed since
`lastModifiedTsSeconds`; with TTL 100 minutes and `maxDelayMinutes = 5` that is more than
105 minutes. -/
theorem C5_expiredLongEnough_delay {RP TTL Extra : Type} (D : Deps RP TTL Extra)
    (v : Volume RP TTL Extra) (maxDelayMinutes : Nat) (now : Int) :
    ((v.Ttl = none ∨ ∃ ttl, v.Ttl = some ttl ∧ Volume.ttlMinutes D ttl = 0) →
      v.expiredLongEnough D maxDelayMinutes now = false) ∧
    (∀ ttl, v.Ttl = some ttl → 0 ≤ now →
      Volume.ttlMinutes D ttl + min (Volume.ttlMinutes D ttl / 10) maxDelayMinutes
        < 4294967296 →
      (Volume.ttlMinutes D ttl + min (Volume.ttlMinutes D ttl / 10) maxDelayMinutes) * 60
        + v.lastModifiedTsSeconds < 18446744073709551616 →
      v.expiredLongEnough D maxDelayMinutes now = true →
      Int.ofNat ((Volume.ttlMinutes D ttl
          + min (Volume.ttlMinutes D ttl / 10) maxDelayMinutes) * 60)
        < now - Int.ofNat v.lastModifiedTsSeconds) ∧
    (∀ ttl, v.Ttl = some ttl → Volume.ttlMinutes D ttl = 100 → maxDelayMinutes = 5 →
      0 ≤ now → v.lastModifiedTsSeconds < 18446744073709545316 →
      v.expiredLongEnough D maxDelayMinutes now = true →
      105 * 60 < now - Int.ofNat v.lastModifiedTsSeconds) := by
  have main : ∀ ttl, v.Ttl = some ttl → 0 ≤ now →
      Volume.ttlMinutes D ttl + min (Volume.ttlMinutes D ttl / 10) maxDelayMinutes
        < 4294967296 →
      (Volume.ttlMinutes D ttl + min (Volume.ttlMinutes D ttl / 10) maxDelayMinutes) * 60
        + v.lastModifiedTsSeconds < 18446744073709551616 →
      v.expiredLongEnough D maxDelayMinutes now = true →
      Int.ofNat ((Volume.ttlMinutes D ttl
          + min (Volume.ttlMinutes D ttl / 10) maxDelayMinutes) * 60)
        < now - Int.ofNat v.lastModifiedTsSeconds := by
    intro ttl httl hnow h32 h64 ht
    obtain ⟨ttl2, h3, _, h5⟩ := (expiredLongEnough_eq_true_iff D v maxDelayMinutes now).1 ht
    rw [httl] at h3
    cases h3
    generalize Volume.ttlMinutes D ttl + min (Volume.ttlMinutes D ttl / 10) maxDelayMinutes
      = d at h32 h64 h5 ⊢
    have e1 : toUint32 d = d := by simp only [toUint32]; omega
    have e2 : toUint64 (d * 60) = d * 60 := by simp only [toUint64]; omega
    have e3 : toUint64 (d * 60 + v.lastModifiedTsSeconds) = d * 60 + v.lastModifiedTsSeconds := by
      simp only [toUint64]; omega
    rw [e1, e2, e3] at h5
    have e4 : (intToUint64 now : Int) ≤ now := by
      simp only [intToUint64]
      rw [Int.toNat_of_nonneg (by omega)]
      omega
    have h6 : ((d * 60 + v.lastModifiedTsSeconds : Nat) : Int) < (intToUint64 now : Int) := by
      exact_mod_cast h5
    have h7 : Int.ofNat (d * 60) = ((d * 60 : Nat) : Int) := rfl
    have h8 : Int.ofNat v.lastModifiedTsSeconds = (v.lastModifiedTsSeconds : Int) := rfl
    rw [h7, h8]
    push_cast at h6 ⊢
    omega
  refine ⟨?_, main, ?_⟩
  · intro h
    cases hb : v.expiredLongEnough D maxDelayMinutes now with
    | false => rfl
    | true =>
      obtain ⟨ttl, h3, h4, _⟩ := (expiredLongEnough_eq_true_iff D v maxDelayMinutes now).1 hb
      rcases h with h | ⟨ttl2, h, h0⟩
      · rw [h3] at h; cases h
      · rw [h3] at h; cases h; exact absurd h0 h4
  · intro ttl httl h100 h5 hnow hlm ht
    have := main ttl httl hnow (by rw [h100, h5]; decide) (by rw [h100, h5]; omega) ht
    rw [h100, h5] at this
    exact this

/-- Witness for C5: TTL 100 minutes, cap 5, last modified at 1000, now 7301. -/
theorem C5_expiredLongEnough_delay_witness :
    105 * 60 < (7301 : Int) - Int.ofNat (sampleVolume (some (100, 1)) 1000).lastModifiedTsSeconds :=
  (C5_expiredLongEnough_delay sampleDeps (sampleVolume (some (100, 1)) 1000) 5 7301).2.2
    (100, 1) rfl (by decide) rfl (by decide) (by decide) (by decide)

/-- C5 (counterexample): with TTL 100 minutes and `maxDelayMinutes = 5`,
`expiredLongEnough` returns true at `now = -1` for a volume last modified at 0 (the
conversion `uint64(time.Now().Unix())` is `2^64 - 1`), and at `now = 6300` for a volume
with `lastModifiedTsSeconds = 2^64 - 1` (the `uint64` sum wraps to 6299); in both cases
fewer than 105 minutes have elapsed since `lastModifiedTsSeconds`. -/
theorem C5_counterexample :
    ((sampleVolume (some (100, 1)) 0).expiredLongEnough sampleDeps 5 (-1) = true ∧
      (-1 : Int) - Int.ofNat (sampleVolume (some (100, 1)) 0).lastModifiedTsSeconds
        < 105 * 60) ∧
    ((sampleVolume (some (100, 1)) 18446744073709551615).expiredLongEnough sampleDeps 5 6300
        = true ∧
      (6300 : Int)
          - Int.ofNat (sampleVolume (some (100, 1)) 18446744073709551615).lastModifiedTsSeconds
        < 105 * 60) := by
  decide

/-! ## Volume: deferred removal on top of expiry -/

/-- Without wraparound (`0 ≤ now`, the sum of TTL minutes and delay a `uint32`, the
deadline a `uint64`), a true `expiredLongEnough` means that the deadline
`(ttlMinutes + delay) * 60 + lastModifiedTsSeconds` lies strictly before `now`. -/
theorem expiredLongEnough_deadline {RP TTL Extra : Type} (D : Deps RP TTL Extra)
    (v : Volume RP TTL Extra) (maxDelayMinutes : Nat) (now : Int) (ttl : TTL)
    (httl : v.Ttl = some ttl) (hnow : 0 ≤ now)
    (h32 : Volume.ttlMinutes D ttl + min (Volume.ttlMinutes D ttl / 10) maxDelayMinutes
      < 4294967296)
    (h64 : (Volume.ttlMinutes D ttl + min (Volume.ttlMinutes D ttl / 10) maxDelayMinutes) * 60
      + v.lastModifiedTsSeconds < 18446744073709551616)
    (ht : v.expiredLongEnough D maxDelayMinutes now = true) :
    Volume.ttlMinutes D ttl ≠ 0 ∧
    (((Volume.ttlMinutes D ttl + min (Volume.ttlMinutes D ttl / 10) maxDelayMinutes) * 60
      + v.lastModifiedTsSeconds : Nat) : Int) < now := by
  obtain ⟨ttl2, h3, h4, h5⟩ := (expiredLongEnough_eq_true_iff D v maxDelayMinutes now).1 ht
  rw [httl] at h3
  cases h3
  refine ⟨h4, ?_⟩
  generalize Volume.ttlMinutes D ttl + min (Volume.ttlMinutes D ttl / 10) maxDelayMinutes
    = d at h32 h64 h5 ⊢
  have e1 : toUint32 d = d := by simp only [toUint32]; omega
  have e2 : toUint64 (d * 60) = d * 60 := by simp only [toUint64]; omega
  have e3 : toUint64 (d * 60 + v.lastModifiedTsSeconds) = d * 60 + v.lastModifiedTsSeconds := by
    simp only [toUint64]; omega
  rw [e1, e2, e3] at h5
  have e4 : (intToUint64 now : Int) ≤ now := by
    simp only [intToUint64]
    rw [Int.toNat_of_nonneg (by omega)]
    omega
  have h6 : ((d * 60 + v.lastModifiedTsSeconds : Nat) : Int) < (intToUint64 now : Int) := by
    exact_mod_cast h5
  omega

/-- C11 (amended): for a volume with non-zero content size, a non-zero size limit and one
common current time `now` with `0 ≤ now < 2^63`, when for the configured TTL the removal
delay `min(ttlMinutes/10, maxDelayMinutes)` is at least one minute, the sum of TTL
minutes and delay fits a `uint32` and the deadline fits a `uint64`: if
`expiredLongEnough(maxDelayMinutes)` returns true then `expired(volumeSizeLimit)` returns
true as well. -/
theorem C11_longEnough_implies_expired {RP TTL Extra : Type} (D : Deps RP TTL Extra)
    (v : Volume RP TTL Extra) (volumeSizeLimit maxDelayMinutes : Nat) (now : Int)
    (hcontent : v.ContentSize ≠ 0) (hlimit : volumeSizeLimit ≠ 0)
    (hnow : 0 ≤ now) (hnow2 : now < 9223372036854775808)
    (hrange : ∀ ttl, v.Ttl = some ttl →
      1 ≤ min (Volume.ttlMinutes D ttl / 10) maxDelayMinutes ∧
      Volume.ttlMinutes D ttl + min (Volume.ttlMinutes D ttl / 10) maxDelayMinutes
        < 4294967296 ∧
      (Volume.ttlMinutes D ttl + min (Volume.ttlMinutes D ttl / 10) maxDelayMinutes) * 60
        + v.lastModifiedTsSeconds < 18446744073709551616)
    (hlong : v.expiredLongEnough D maxDelayMinutes now = true) :
    v.expired D volumeSizeLimit now = true := by
  obtain ⟨ttl, httl, _, _⟩ := (expiredLongEnough_eq_true_iff D v maxDelayMinutes now).1 hlong
  obtain ⟨hdelay, h32, h64⟩ := hrange ttl httl
  obtain ⟨hm, hdead⟩ := expiredLongEnough_deadline D v maxDelayMinutes now ttl httl hnow
    h32 h64 hlong
  have hofNat : Int.ofNat v.lastModifiedTsSeconds = (v.lastModifiedTsSeconds : Int) := rfl
  have hlm : v.lastModifiedTsSeconds < 9223372036854775808 := by
    push_cast at hdead
    omega
  have hsub : -9223372036854775808 ≤ now - Int.ofNat v.lastModifiedTsSeconds := by
    rw [hofNat]
    push_cast at hdead
    omega
  rw [expired_eq_true_iff, livedMinutes_of_range v now hlm hnow2 hsub]
  refine ⟨hlimit, hcontent, ttl, httl, hm, ?_⟩
  have hpos : (0 : Int) ≤ now - Int.ofNat v.lastModifiedTsSeconds := by
    rw [hofNat]
    push_cast at hdead
    omega
  have hm2 : Int.ofNat (Volume.ttlMinutes D ttl) = (Volume.ttlMinutes D ttl : Int) := rfl
  rw [goDiv, Int.tdiv_eq_ediv hpos (by decide), hofNat, hm2]
  generalize Volume.ttlMinutes D ttl = m at hdelay hdead ⊢
  generalize min (m / 10) maxDelayMinutes = d at hdelay hdead
  push_cast at hdead
  omega

/-- Witness for C11: TTL 100 minutes, cap 5, last modified at 1000, now 7301. -/
theorem C11_longEnough_implies_expired_witness :
    (sampleVolume (some (100, 1)) 1000).expired sampleDeps 30000 7301 = true :=
  C11_longEnough_implies_expired sampleDeps (sampleVolume (some (100, 1)) 1000) 30000 5 7301
    (by decide) (by decide) (by decide) (by decide)
    (by
      intro ttl h
      have : ttl = (100, 1) := by
        simp only [sampleVolume, Option.some.injEq] at h
        exact h.symm
      subst this
      decide)
    (by decide)

/-- C11 (counterexample): with TTL 5 minutes the removal delay is 0; for a volume last
modified at 0 with non-zero content, at `now = 301` `expiredLongEnough` returns true
(`300 < 301`) while `expired` returns false (`301 / 60 = 5` is not above 5). With TTL
100 minutes, cap 5 and `now = -1` the conversion `uint64(time.Now().Unix())` is
`2^64 - 1`, so `expiredLongEnough` returns true while `expired` returns false. -/
theorem C11_counterexample :
    ((sampleVolume (some (5, 1)) 0).ContentSize ≠ 0 ∧ 30000 ≠ 0 ∧
      ¬ ((sampleVolume (some (5, 1)) 0).expiredLongEnough sampleDeps 5 301 = true →
          (sampleVolume (some (5, 1)) 0).expired sampleDeps 30000 301 = true)) ∧
    ((sampleVolume (some (100, 1)) 0).ContentSize ≠ 0 ∧ 30000 ≠ 0 ∧
      ¬ ((sampleVolume (some (100, 1)) 0).expiredLongEnough sampleDeps 5 (-1) = true →
          (sampleVolume (some (100, 1)) 0).expired sampleDeps 30000 (-1) = true)) := by
  decide

/-! ## Volume: accounting, `FileStat`, `Close` -/

/-- With a nil index the six accounting accessors return 0. -/
theorem accessors_zero_of_nm_nil {RP TTL Extra : Type} (v : Volume RP TTL Extra)
    (h : v.nm = none) :
    v.ContentSize = 0 ∧ v.DeletedSize = 0 ∧ v.FileCount = 0 ∧ v.DeletedCount = 0 ∧
      v.MaxFileKey = 0 ∧ v.IndexFileSize = 0 := by
  simp [Volume.ContentSize, Volume.DeletedSize, Volume.FileCount, Volume.DeletedCount,
    Volume.MaxFileKey, Volume.IndexFileSize, h]

/-- With a nil index, a bound backend and a successful `GetStat`, `FileStat` reaches
`v.nm.IndexFileSize()` and dereferences the nil index. -/
theorem FileStat_nil_index {RP TTL Extra : Type} (v : Volume RP TTL Extra)
    (b : BackendStorageFile) (hnm : v.nm = none) (hb : v.DataBackend = some b)
    (hs : b.GetStat.err = none) : v.FileStat = .error .nilDereference := by
  simp [Volume.FileStat, hnm, hb, hs]

/-- C6 (the code at a failing input): for the volume with a nil index and a data backend
of 11 bytes whose `GetStat` succeeds, the six accounting accessors return 0 but
`FileStat` ends in a nil dereference. -/
theorem C6_FileStat_faults_without_index :
    ((unloadedVolume (some (memFile [3, 12, 5, 1, 0, 0, 0, 0, 9, 9, 9]
        { datSize := 11, modTime := 1700000000, err := none }))).ContentSize = 0 ∧
      (unloadedVolume (some (memFile [3, 12, 5, 1, 0, 0, 0, 0, 9, 9, 9]
        { datSize := 11, modTime := 1700000000, err := none }))).DeletedSize = 0 ∧
      (unloadedVolume (some (memFile [3, 12, 5, 1, 0, 0, 0, 0, 9, 9, 9]
        { datSize := 11, modTime := 1700000000, err := none }))).FileCount = 0 ∧
      (unloadedVolume (some (memFile [3, 12, 5, 1, 0, 0, 0, 0, 9, 9, 9]
        { datSize := 11, modTime := 1700000000, err := none }))).DeletedCount = 0 ∧
      (unloadedVolume (some (memFile [3, 12, 5, 1, 0, 0, 0, 0, 9, 9, 9]
        { datSize := 11, modTime := 1700000000, err := none }))).MaxFileKey = 0 ∧
      (unloadedVolume (some (memFile [3, 12, 5, 1, 0, 0, 0, 0, 9, 9, 9]
        { datSize := 11, modTime := 1700000000, err := none }))).IndexFileSize = 0) ∧
    (unloadedVolume (some (memFile [3, 12, 5, 1, 0, 0, 0, 0, 9, 9, 9]
        { datSize := 11, modTime := 1700000000, err := none }))).FileStat
      = .error .nilDereference := by
  refine ⟨⟨rfl, rfl, rfl, rfl, rfl, rfl⟩, rfl⟩

/-- C7 (amended): for a volume with a bound backend whose `GetStat` returns an error,
`FileStat` returns `datSize = 0`, `idxSize = 0` and as `modTime` the time that `GetStat`
returned alongside the error, whatever size `GetStat` returned and whether or not an
index is loaded. -/
theorem C7_FileStat_on_stat_error {RP TTL Extra : Type} (v : Volume RP TTL Extra)
    (b : BackendStorageFile) (hb : v.DataBackend = some b) (he : b.GetStat.err ≠ none) :
    v.FileStat = .ok (0, 0, b.GetStat.modTime) := by
  cases h : b.GetStat.err with
  | none => exact absurd h he
  | some e => simp [Volume.FileStat, hb, h]

/-- Witness for C7: a backend whose `GetStat` is the S3 one with a failing `HeadObject`
at time 1700000000. -/
theorem C7_FileStat_on_stat_error_witness :
    (unloadedVolume (some (memFile [] (sampleS3File.GetStat 1700000000)))).FileStat
      = .ok (0, 0, (memFile [] (sampleS3File.GetStat 1700000000)).GetStat.modTime) :=
  C7_FileStat_on_stat_error
    (unloadedVolume (some (memFile [] (sampleS3File.GetStat 1700000000))))
    (memFile [] (sampleS3File.GetStat 1700000000)) rfl (by decide)

/-- C7 (counterexample): with a backend whose `GetStat` is the S3 one, failing at time
1700000000, `FileStat` returns 1700000000 as `modTime`, not the zero time. -/
theorem C7_counterexample :
    (unloadedVolume (some (memFile [] (sampleS3File.GetStat 1700000000)))).FileStat
      = .ok (0, 0, 1700000000) ∧ (1700000000 : Time) ≠ zeroTime := by
  exact ⟨rfl, by decide⟩

/-- C8: after `Close` both `nm` and `DataBackend` are nil and the rest of the volume is
as before; a second `Close` leaves the volume unchanged and makes no call; the first
`Close` closes the index (when present) before the backend, and closes the backend and
decrements the counter exactly when a backend was present. -/
theorem C8_Close_idempotent {RP TTL Extra : Type} (v : Volume RP TTL Extra) :
    v.Close.1 = { v with nm := none, DataBackend := none } ∧
    v.Close.1.nm = none ∧ v.Close.1.DataBackend = none ∧
    v.Close.1.Close = (v.Close.1, []) ∧
    v.Close.2 = (if v.nm.isSome then [CloseEvent.indexClose] else [])
      ++ (if v.DataBackend.isSome
          then [CloseEvent.backendClose, CloseEvent.metricDec v.Collection] else []) := by
  rcases v with ⟨sb, id, dir, col, db, nm, ro, lm, la⟩
  cases nm <;> cases db <;> simp [Volume.Close]

/-! ## Backend registry -/

/-- A qualified key `type.id` differs from the bare key `type`. -/
theorem qualified_ne_bare (typeName id : String) : typeName ++ "." ++ id ≠ typeName := by
  intro h
  have := congrArg String.length h
  simp only [String.length_append] at this
  have h1 : ".".length = 1 := rfl
  omega

theorem splitDot_no_dot (l : List Char) (h : '.' ∉ l) : splitDot l = [l] := by
  induction l with
  | nil => rfl
  | cons c cs ih =>
    have hc : c ≠ '.' := fun e => h (by simp [e])
    have hcs : '.' ∉ cs := fun e => h (by simp [e])
    simp [splitDot, hc, ih hcs]

theorem splitDot_append_dot (a b : List Char) (ha : '.' ∉ a) :
    splitDot (a ++ '.' :: b) = a :: splitDot b := by
  induction a with
  | nil => simp [splitDot]
  | cons c cs ih =>
    have hc : c ≠ '.' := fun e => ha (by simp [e])
    have hcs : '.' ∉ cs := fun e => ha (by simp [e])
    simp [splitDot, hc, ih hcs]

/-- A key `type.id` without further dots splits into exactly `type` and `id`. -/
theorem stringsSplitDot_qualified (typeName id : String) (ht : '.' ∉ typeName.data)
    (hi : '.' ∉ id.data) : stringsSplitDot (typeName ++ "." ++ id) = [typeName, id] := by
  have hd : (typeName ++ "." ++ id).data = typeName.data ++ '.' :: id.data := by
    simp [String.data_append]
  simp [stringsSplitDot, hd, splitDot_append_dot _ _ ht, splitDot_no_dot _ hi]

theorem qualified_injective (typeName a b : String)
    (h : typeName ++ "." ++ a = typeName ++ "." ++ b) : a = b := by
  have := congrArg String.data h
  simp only [String.data_append, List.append_assoc, List.append_cancel_left_eq] at this
  exact String.ext this

theorem ToPbStorageBackends_cons_skip (k : String) (b : BackendStorage)
    (rest : GoMap BackendStorage) (hk : (stringsSplitDot k).length ≠ 2) :
    ToPbStorageBackends ((k, b) :: rest) = ToPbStorageBackends rest := by
  rw [ToPbStorageBackends]
  split
  · rename_i h
    rw [h] at hk
    simp at hk
  · rfl

theorem ToPbStorageBackends_cons_pair (k t i : String) (b : BackendStorage)
    (rest : GoMap BackendStorage) (hk : stringsSplitDot k = [t, i]) :
    ToPbStorageBackends ((k, b) :: rest)
      = { Type_ := t, Id := i, Properties := b.ToProperties } :: ToPbStorageBackends rest := by
  rw [ToPbStorageBackends]
  split
  · rename_i h
    rw [hk] at h
    simp only [List.cons.injEq, and_true] at h
    rw [h.1, h.2]
  · rename_i h
    exact absurd hk (h t i)

/-- Assigning a key that does not split into two parts does not change the export. -/
theorem ToPbStorageBackends_set_skip (m : GoMap BackendStorage) (k : String)
    (b : BackendStorage) (hk : (stringsSplitDot k).length ≠ 2) :
    ToPbStorageBackends (m.set k b) = ToPbStorageBackends m := by
  induction m with
  | nil => simp [GoMap.set, ToPbStorageBackends_cons_skip _ _ _ hk]
  | cons hd tl ih =>
    obtain ⟨k1, v1⟩ := hd
    by_cases h : k1 = k
    · subst h
      simp [GoMap.set, ToPbStorageBackends_cons_skip _ _ _ hk]
    · simp only [GoMap.set, h, if_false]
      rw [ToPbStorageBackends, ToPbStorageBackends, ih]

/-- Assigning a fresh key `type.id` appends one message to the export. -/
theorem ToPbStorageBackends_set_fresh (m : GoMap BackendStorage) (k t i : String)
    (b : BackendStorage) (hk : stringsSplitDot k = [t, i]) (hfresh : k ∉ m.keys) :
    ToPbStorageBackends (m.set k b)
      = ToPbStorageBackends m ++ [{ Type_ := t, Id := i, Properties := b.ToProperties }] := by
  induction m with
  | nil =>
    simp only [GoMap.set]
    rw [ToPbStorageBackends_cons_pair _ _ _ _ _ hk]
    simp [ToPbStorageBackends]
  | cons hd tl ih =>
    obtain ⟨k1, v1⟩ := hd
    have h : k1 ≠ k := fun e => hfresh (by simp [GoMap.keys, e])
    have htl : k ∉ GoMap.keys tl := fun e => hfresh (by
      simp only [GoMap.keys, List.map_cons, List.mem_cons]
      exact Or.inr e)
    simp only [GoMap.set, h, if_false]
    rw [ToPbStorageBackends, ToPbStorageBackends, ih htl]
    split <;> simp

theorem GoMap.mem_keys_set {β : Type} (m : GoMap β) (k k2 : String) (v : β)
    (h : k2 ∈ (m.set k v).keys) : k2 = k ∨ k2 ∈ m.keys := by
  induction m with
  | nil =>
    simp only [GoMap.set, GoMap.keys, List.map_cons, List.map_nil, List.mem_singleton] at h
    exact Or.inl h
  | cons hd tl ih =>
    obtain ⟨k1, v1⟩ := hd
    by_cases hk : k1 = k
    · simp only [GoMap.set, hk, if_true, GoMap.keys, List.map_cons, List.mem_cons] at h ⊢
      rcases h with h | h
      · exact Or.inl h
      · exact Or.inr (Or.inr h)
    · simp only [GoMap.set, hk, if_false, GoMap.keys, List.map_cons, List.mem_cons] at h ⊢
      rcases h with h | h
      · exact Or.inr (Or.inl h)
      · rcases ih h with h | h
        · exact Or.inl h
        · exact Or.inr (Or.inr h)

theorem mem_keys_install (m : GoMap BackendStorage) (typeName id k : String)
    (b : BackendStorage) (h : k ∈ (install m typeName id b).keys) :
    k = typeName ++ "." ++ id ∨ k = typeName ∨ k ∈ m.keys := by
  unfold install at h
  by_cases hd : id = "default"
  · simp only [hd, if_true] at h
    rcases GoMap.mem_keys_set _ _ _ _ h with h | h
    · exact Or.inr (Or.inl h)
    · rcases GoMap.mem_keys_set _ _ _ _ h with h | h
      · exact Or.inl (by rw [h, hd])
      · exact Or.inr (Or.inr h)
  · simp only [hd, if_false] at h
    rcases GoMap.mem_keys_set _ _ _ _ h with h | h
    · exact Or.inl h
    · exact Or.inr (Or.inr h)

theorem s3Exported_of_HasS3Keys (p : StringMap) (h : HasS3Keys p) : s3Exported p = p := by
  funext k
  have hk := h k
  have hval : ∀ key, p key ≠ none → some (newProperties p key) = p key := by
    intro key hne
    cases hp : p key with
    | none => exact absurd hp hne
    | some v => simp [newProperties, hp]
  by_cases h1 : k = "bucket"
  · subst h1
    simp only [s3Exported, StringMap.set, if_true]
    exact hval _ (hk.2 (by simp))
  by_cases h2 : k = "region"
  · subst h2
    simp only [s3Exported, StringMap.set, h1, if_false, if_true]
    exact hval _ (hk.2 (by simp))
  by_cases h3 : k = "aws_secret_access_key"
  · subst h3
    simp only [s3Exported, StringMap.set, h1, h2, if_false, if_true]
    exact hval _ (hk.2 (by simp))
  by_cases h4 : k = "aws_access_key_id"
  · subst h4
    simp only [s3Exported, StringMap.set, h1, h2, h3, if_false, if_true]
    exact hval _ (hk.2 (by simp))
  · simp only [s3Exported, StringMap.set, StringMap.empty, h1, h2, h3, h4, if_false]
    have : ¬ p k ≠ none := fun hne => by
      rcases hk.1 hne with e | e | e | e
      · exact h4 e
      · exact h3 e
      · exact h2 e
      · exact h1 e
    simp only [ne_eq, not_not] at this
    exact this.symm

/-- The S3 factory builds, for an entry whose session can be created, a backend that
exports `s3Exported` of the entry's properties. -/
theorem S3BackendFactory_build (createSession : String → String → String → Option S3API)
    (sb : StorageBackend) (hs : SessionOk createSession sb) :
    ∃ b, (S3BackendFactory createSession).BuildStorage (newProperties sb.Properties) sb.Id
        = some b ∧ b.ToProperties = s3Exported sb.Properties := by
  unfold SessionOk at hs
  cases hc : createSession (newProperties sb.Properties "aws_access_key_id")
      (newProperties sb.Properties "aws_secret_access_key")
      (newProperties sb.Properties "region") with
  | none => exact absurd hc hs
  | some conn =>
    refine ⟨BackendStorage.mk (S3BackendStorage.ToProperties
      { id := sb.Id
        aws_access_key_id := newProperties sb.Properties "aws_access_key_id"
        aws_secret_access_key := newProperties sb.Properties "aws_secret_access_key"
        region := newProperties sb.Properties "region"
        bucket := newProperties sb.Properties "bucket"
        conn := conn }), ?_, ?_⟩
    · simp only [S3BackendFactory, newS3BackendStorage, hc, Option.map_some']
    · rfl

/-- Loading S3 entries with distinct, dot-free ids whose keys are not yet in the registry
appends to the export one message per entry, in order. -/
theorem load_then_export (createSession : String → String → String → Option S3API)
    (l : List StorageBackend) (m : GoMap BackendStorage)
    (hl : ∀ sb ∈ l, sb.Type_ = "s3" ∧ '.' ∉ sb.Id.data ∧ SessionOk createSession sb)
    (hnd : (l.map StorageBackend.Id).Nodup)
    (hm : ∀ sb ∈ l, "s3" ++ "." ++ sb.Id ∉ m.keys) :
    ∃ m1, LoadFromPbStorageBackends (BackendStorageFactories createSession) l m = .ok m1 ∧
      ToPbStorageBackends m1 = ToPbStorageBackends m ++ l.map fun sb =>
        { Type_ := "s3", Id := sb.Id, Properties := s3Exported sb.Properties } := by
  induction l generalizing m with
  | nil => exact ⟨m, rfl, by simp⟩
  | cons sb rest ih =>
    obtain ⟨hty, hdot, hses⟩ := hl sb (by simp)
    obtain ⟨b, hb, hprops⟩ := S3BackendFactory_build createSession sb hses
    have hfac : BackendStorageFactories createSession sb.Type_
        = some (S3BackendFactory createSession) := by
      simp [BackendStorageFactories, hty]
    have hfresh : "s3" ++ "." ++ sb.Id ∉ m.keys := hm sb (by simp)
    have hs3 : (stringsSplitDot "s3").length ≠ 2 := by decide
    have hsplit : stringsSplitDot ("s3" ++ "." ++ sb.Id) = ["s3", sb.Id] :=
      stringsSplitDot_qualified "s3" sb.Id (by decide) hdot
    have hexp : ToPbStorageBackends (install m "s3" sb.Id b)
        = ToPbStorageBackends m
          ++ [{ Type_ := "s3", Id := sb.Id, Properties := s3Exported sb.Properties }] := by
      unfold install
      by_cases hd : sb.Id = "default"
      · simp only [hd, if_true]
        rw [ToPbStorageBackends_set_skip _ _ _ hs3, ← hd,
          ToPbStorageBackends_set_fresh _ _ _ _ _ hsplit hfresh, hprops]
      · simp only [hd, if_false]
        rw [ToPbStorageBackends_set_fresh _ _ _ _ _ hsplit hfresh, hprops]
    have hnd2 : (rest.map StorageBackend.Id).Nodup := by
      simp only [List.map_cons, List.nodup_cons] at hnd
      exact hnd.2
    have hnotin : sb.Id ∉ rest.map StorageBackend.Id := by
      simp only [List.map_cons, List.nodup_cons] at hnd
      exact hnd.1
    have hm2 : ∀ sb2 ∈ rest, "s3" ++ "." ++ sb2.Id ∉ (install m "s3" sb.Id b).keys := by
      intro sb2 h2 hk
      rcases mem_keys_install _ _ _ _ _ hk with h | h | h
      · have := qualified_injective "s3" _ _ h
        exact hnotin (List.mem_map.2 ⟨sb2, h2, this⟩)
      · exact qualified_ne_bare "s3" sb2.Id h
      · exact hm sb2 (by simp [h2]) h
    obtain ⟨m1, hload, hexp1⟩ := ih (install m "s3" sb.Id b)
      (fun x hx => hl x (by simp [hx])) hnd2 hm2
    refine ⟨m1, ?_, ?_⟩
    · rw [LoadFromPbStorageBackends, hfac]
      simp only [hb]
      rw [hty]
      exact hload
    · rw [hexp1, hexp]
      simp

theorem sampleS3Properties_keys : HasS3Keys sampleS3Properties := by
  intro k
  by_cases h1 : k = "bucket"
  · simp [sampleS3Properties, StringMap.set, h1]
  by_cases h2 : k = "region"
  · simp [sampleS3Properties, StringMap.set, h2]
  by_cases h3 : k = "aws_secret_access_key"
  · simp [sampleS3Properties, StringMap.set, h3]
  by_cases h4 : k = "aws_access_key_id"
  · simp [sampleS3Properties, StringMap.set, h4]
  · simp [sampleS3Properties, StringMap.set, StringMap.empty, h1, h2, h3, h4]

/-! ## Registry round trip: claim -/

/-- C10 (amended): starting from an empty registry with the S3 factory registered, for
every list of `(s3, id, properties)` entries with pairwise distinct `(type, id)`, ids that
contain no dot, property maps with exactly the four keys `aws_access_key_id`,
`aws_secret_access_key`, `region`, `bucket`, and sessions that can be created, loading
the list with `LoadFromPbStorageBackends` succeeds and `ToPbStorageBackends` then yields
exactly the entries of the list, each once (the bare alias of a `default` backend is not
exported). -/
theorem C10_round_trip (createSession : String → String → String → Option S3API)
    (l : List StorageBackend)
    (hty : ∀ sb ∈ l, sb.Type_ = "s3")
    (hnd : (l.map fun sb => (sb.Type_, sb.Id)).Nodup)
    (hdot : ∀ sb ∈ l, '.' ∉ sb.Id.data)
    (hkeys : ∀ sb ∈ l, HasS3Keys sb.Properties)
    (hses : ∀ sb ∈ l, SessionOk createSession sb) :
    ∃ m, LoadFromPbStorageBackends (BackendStorageFactories createSession) l [] = .ok m ∧
      (∀ t, t ∈ ToPbStorageBackends m ↔ t ∈ l) ∧
      (ToPbStorageBackends m).length = l.length := by
  have hids : (l.map StorageBackend.Id).Nodup := by
    have hinj := List.inj_on_of_nodup_map hnd
    refine List.Nodup.map_on ?_ (List.Nodup.of_map _ hnd)
    intro x hx y hy hxy
    exact hinj hx hy (by simp [hty x hx, hty y hy, hxy])
  obtain ⟨m, hload, hexp⟩ := load_then_export createSession l []
    (fun sb h => ⟨hty sb h, hdot sb h, hses sb h⟩) hids (fun sb _ => by simp [GoMap.keys])
  have hmap : (l.map fun sb : StorageBackend =>
      ({ Type_ := "s3", Id := sb.Id, Properties := s3Exported sb.Properties } :
        StorageBackend)) = l := by
    conv_rhs => rw [← List.map_id l]
    apply List.map_congr_left
    intro sb h
    rw [s3Exported_of_HasS3Keys _ (hkeys sb h), ← hty sb h]
    rfl
  have hfinal : ToPbStorageBackends m = l := by
    rw [hexp, hmap]
    simp [ToPbStorageBackends]
  refine ⟨m, hload, ?_, ?_⟩
  · intro t
    rw [hfinal]
  · rw [hfinal]

/-- Witness for C10: the entries `(s3, default)` and `(s3, cold)`. -/
theorem C10_round_trip_witness :
    ∃ m, LoadFromPbStorageBackends (BackendStorageFactories sampleCreateSession)
        [{ Type_ := "s3", Id := "default", Properties := sampleS3Properties },
         { Type_ := "s3", Id := "cold", Properties := sampleS3Properties }] [] = .ok m ∧
      (∀ t, t ∈ ToPbStorageBackends m ↔
        t ∈ [({ Type_ := "s3", Id := "default", Properties := sampleS3Properties } :
                StorageBackend),
             { Type_ := "s3", Id := "cold", Properties := sampleS3Properties }]) ∧
      (ToPbStorageBackends m).length
        = [({ Type_ := "s3", Id := "default", Properties := sampleS3Properties } :
              StorageBackend),
           { Type_ := "s3", Id := "cold", Properties := sampleS3Properties }].length :=
  C10_round_trip sampleCreateSession
    [{ Type_ := "s3", Id := "default", Properties := sampleS3Properties },
     { Type_ := "s3", Id := "cold", Properties := sampleS3Properties }]
    (by intro sb h; simp at h; rcases h with h | h <;> rw [h])
    (by decide)
    (by intro sb h; simp at h; rcases h with h | h <;> rw [h] <;> decide)
    (by intro sb h; simp at h; rcases h with h | h <;> rw [h] <;>
          exact sampleS3Properties_keys)
    (by intro sb h; simp [SessionOk, sampleCreateSession])

/-- C10 (counterexample): the single entry `(s3, default)` with an empty property map is
exported with the four S3 keys set to the empty string, so the loaded entry is not among
the exported ones; the single entry `(s3, us.east)` is installed under a key with two
dots and is not exported at all. -/
theorem C10_counterexample :
    (∃ m, LoadFromPbStorageBackends (BackendStorageFactories sampleCreateSession)
        [{ Type_ := "s3", Id := "default", Properties := StringMap.empty }] [] = .ok m ∧
      ¬ (∀ t, t ∈ ToPbStorageBackends m ↔
          t ∈ [({ Type_ := "s3", Id := "default", Properties := StringMap.empty } :
                  StorageBackend)])) ∧
    (∃ m, LoadFromPbStorageBackends (BackendStorageFactories sampleCreateSession)
        [{ Type_ := "s3", Id := "us.east", Properties := sampleS3Properties }] [] = .ok m ∧
      ¬ (∀ t, t ∈ ToPbStorageBackends m ↔
          t ∈ [({ Type_ := "s3", Id := "us.east", Properties := sampleS3Properties } :
                  StorageBackend)])) := by
  constructor
  · obtain ⟨m, hload, hexp⟩ := load_then_export sampleCreateSession
      [{ Type_ := "s3", Id := "default", Properties := StringMap.empty }] []
      (by intro sb h; simp at h; rw [h]
          exact ⟨rfl, by decide, by simp [SessionOk, sampleCreateSession]⟩)
      (by simp) (fun sb _ => by simp [GoMap.keys])
    refine ⟨m, hload, fun hall => ?_⟩
    have hin := (hall { Type_ := "s3", Id := "default", Properties := StringMap.empty }).2
      (by simp)
    rw [hexp] at hin
    simp only [ToPbStorageBackends, List.nil_append, List.map_cons, List.map_nil,
      List.mem_singleton] at hin
    have hreg := congrArg (fun t : StorageBackend => t.Properties "region") hin
    simp [StringMap.empty, s3Exported, StringMap.set] at hreg
  · refine ⟨[("s3.us.east", { ToProperties := s3Exported sampleS3Properties })], rfl,
      fun hall => ?_⟩
    have hin := (hall { Type_ := "s3", Id := "us.east", Properties := sampleS3Properties }).2
      (by simp)
    have hnil : ToPbStorageBackends
        [("s3.us.east", { ToProperties := s3Exported sampleS3Properties })] = [] := by
      rw [ToPbStorageBackends_cons_skip _ _ _ (by decide)]
      rfl
    rw [hnil] at hin
    cases hin

end Seaweed
